import Mathlib

/-!
# Verification of the Turtle Adventure game core

A shallow embedding of `turtle_adventure.py` (enemy behaviours, collision
test, turret timer, spawner placement, player motion, session scheduling)
together with theorems settling the specification claims.  Python floats
are modelled as rationals where the code only adds, compares and divides,
and as reals where trigonometric functions appear.  `random.randrange(a, b)`
is modelled by an arbitrary integer of the half-open interval `[a, b)`.
-/

namespace TurtleAdventure

/-! ## Collision test (`Enemy.hits_player`) -/

/-- Embedding of `Enemy.hits_player` (turtle_adventure.py lines 236-248):
the player position lies in the enemy box of side `size` centered at
`(ex, ey)`, or the enemy center lies between `player - 7` and `player + 7`
on both axes. -/
def hitsPlayer (ex ey size px py : ℚ) : Bool :=
  (decide (ex - size / 2 ≤ px) && decide (px ≤ ex + size / 2)
    && (decide (ey - size / 2 ≤ py) && decide (py ≤ ey + size / 2)))
  || (decide (px - 7 ≤ ex) && decide (ex ≤ px + 7)
    && (decide (py - 7 ≤ ey) && decide (ey ≤ py + 7)))

/-! ## Turret timer (`Turret.shoot`) -/

/-- Embedding of the `Turret.__init__` field `self.__fire_rate = (1/fire_rate)*1000`. -/
def turretFireRateField (fire_rate : ℚ) : ℚ := (1 / fire_rate) * 1000

/-- Embedding of `Turret.shoot` (lines 544-551): the timer grows by 33; once
it reaches the fire-rate field a bullet is spawned (the `Bool`) and the
timer is reset to 0.  The spawned bullet starts at the turret position and
is aimed using the player position at that instant (see `bulletVelocity`). -/
def turretShoot (frField timer : ℚ) : ℚ × Bool :=
  let t := timer + 33
  if frField ≤ t then (0, true) else (t, false)

/-- Timer value and fired-flag after `n` ticks of `Turret.update`, starting
from the initial timer 0 of `Turret.__init__`. -/
def turretState (frField : ℚ) : ℕ → ℚ × Bool
  | 0 => (0, false)
  | n + 1 => turretShoot frField (turretState frField n).1

/-! ## Random-moving enemy (`RandomMovingEnemy.update`) -/

/-- The set of integer offsets `random.randrange` can produce for one
coordinate in `RandomMovingEnemy.update` (lines 261-273): `[0, 15)` at or
beyond the low edge, `[-15, 0)` at or beyond the high edge, `[-15, 15)`
strictly inside. -/
def rmeOffsets (extent x : ℚ) : Finset ℤ :=
  if x ≤ 0 then Finset.Ico 0 15
  else if extent ≤ x then Finset.Ico (-15) 0
  else Finset.Ico (-15) 15

/-- One coordinate update of `RandomMovingEnemy.update` given the drawn
offset: the coordinate simply moves by the draw. -/
def rmeMove (x : ℚ) (d : ℤ) : ℚ := x + d

/-- The possible single-tick position transitions of `RandomMovingEnemy`:
x and y move independently, each by a draw from its own offset set. -/
def RmeStep (w h x y x' y' : ℚ) : Prop :=
  ∃ dx ∈ rmeOffsets w x, ∃ dy ∈ rmeOffsets h y, x' = rmeMove x dx ∧ y' = rmeMove y dy

/-! ## Spawner placement (`EnemyGenerator`) -/

/-- Embedding of `EnemyGenerator.safe_area` (lines 605-607): a 200 by 200
box centered on the player. -/
def safeArea (playerX playerY x y : ℚ) : Bool :=
  decide (playerX - 100 ≤ x) && decide (x ≤ playerX + 100)
    && (decide (playerY - 100 ≤ y) && decide (y ≤ playerY + 100))

/-- Embedding of `EnemyGenerator.home_area` (lines 609-612): the x bound
uses the Home position, the y bound uses the Player y position, both with
the Home patrol half-side `(home.size/2)*5`. -/
def homeArea (homeX homeSize playerY x y : ℚ) : Bool :=
  let dist := (homeSize / 2) * 5
  decide (homeX - dist ≤ x) && decide (x ≤ homeX + dist)
    && (decide (playerY - dist ≤ y) && decide (y ≤ playerY + dist))

/-- The acceptance test of the placement loop in
`EnemyGenerator.create_enemy` (line 628): a candidate is kept iff it is in
neither `safe_area` nor `home_area`. -/
def placementOk (playerX playerY homeX homeSize : ℚ) (c : ℤ × ℤ) : Bool :=
  !safeArea playerX playerY (c.1 : ℚ) (c.2 : ℚ)
    && !homeArea homeX homeSize playerY (c.1 : ℚ) (c.2 : ℚ)

/-- The `while True` resampling loop of `EnemyGenerator.create_enemy`
(lines 625-629), run on the stream of sampled candidates: the selected
position is the first candidate passing `placementOk`. -/
def createEnemyPos (playerX playerY homeX homeSize : ℚ)
    (cands : List (ℤ × ℤ)) : Option (ℤ × ℤ) :=
  cands.find? (placementOk playerX playerY homeX homeSize)

/-- The range of `random.randrange(0 + int(size/2), extent - int(size/2))`
used for each coordinate of a candidate (lines 626-627). -/
def sampleRange (halfSize extent v : ℤ) : Prop :=
  halfSize ≤ v ∧ v < extent - halfSize

/-! ## Camping enemy default speed (`CampingEnemy.__init__`) -/

/-- Models the Python default-argument semantics of
`speed: float = random.randrange(3, 5)` in `CampingEnemy.__init__`
(line 419): the default expression is evaluated a single time, when the
class statement executes, consuming exactly one draw (index 0) of the
random stream; it is never re-evaluated at construction time. -/
def campingClassDefault (stream : ℕ → ℤ) : ℤ := stream 0

/-- The speed a `CampingEnemy` construction receives: the explicit
argument when one is passed, otherwise the class-definition-time default;
no further random draw is consumed. -/
def campingCtorSpeed (stream : ℕ → ℤ) (explicit : Option ℚ) : ℚ :=
  explicit.getD ((campingClassDefault stream : ℤ) : ℚ)

/-! ## Camping enemy patrol (`CampingEnemy`) -/

/-- The four bound movement functions of `CampingEnemy`, as a mode tag. -/
inductive CampMode : Type
  | right : CampMode
  | down : CampMode
  | left : CampMode
  | up : CampMode
deriving DecidableEq, Repr

/-- Position and current movement mode of a `CampingEnemy`. -/
structure CampState : Type where
  x : ℚ
  y : ℚ
  mode : CampMode
deriving DecidableEq, Repr

/-- Embedding of `self.__multiplier = (self.game.home.size/2)*5`
(line 423). -/
def campingMultiplier (homeSize : ℚ) : ℚ := (homeSize / 2) * 5

/-- Embedding of the movement part of `CampingEnemy.update`
(lines 429-463): dispatch on the current mode function.  Each mode moves
by `speed` along its axis; on crossing the patrol threshold the position
is snapped to the corresponding corner of the patrol square around Home
and the mode switches to the next one in the cycle
right, down, left, up.  The trailing `hits_player` check of `update`
touches neither the position nor the mode. -/
def campingStep (hx hy m s : ℚ) : CampState → CampState
  | ⟨x, y, .right⟩ =>
      if hx + m ≤ x + s then ⟨hx + m, hy - m, .down⟩ else ⟨x + s, y, .right⟩
  | ⟨x, y, .down⟩ =>
      if hy + m ≤ y + s then ⟨hx + m, hy + m, .left⟩ else ⟨x, y + s, .down⟩
  | ⟨x, y, .left⟩ =>
      if x - s ≤ hx - m then ⟨hx - m, hy + m, .up⟩ else ⟨x - s, y, .left⟩
  | ⟨x, y, .up⟩ =>
      if y - s ≤ hy - m then ⟨hx - m, hy - m, .right⟩ else ⟨x, y - s, .up⟩

/-- The position `EnemyGenerator.create_enemy` gives a `CampingEnemy`
(lines 621-623), the top-left patrol corner, with the initial mode
`moving_right` set by `CampingEnemy.__init__` (line 422). -/
def campingStart (hx hy m : ℚ) : CampState := ⟨hx - m, hy - m, .right⟩

/-! ## Session scheduling (game over and the spawn timer) -/

/-- The two kinds of callback the timer service can deliver. -/
inductive SessionEvent : Type
  | tick : SessionEvent
  | spawn : SessionEvent
deriving DecidableEq, Repr

/-- The session state observable by scheduled callbacks: whether the
session is still running (false after `game_over_win`/`game_over_lose`,
both of which call `stop`), the number of live enemies, and how many
entity updates have been performed. -/
structure SessionState : Type where
  running : Bool
  enemies : ℕ
  updatesDone : ℕ
deriving DecidableEq, Repr

/-- Embedding of `TurtleAdventureGame.game_over_win` /
`game_over_lose` (lines 686-708): both stop the session; the banner
drawing touches no game state. -/
def gameOver (s : SessionState) : SessionState := { s with running := false }

/-- Modelled from the spec: the per-frame tick callback of the Game
session controller (class `Game` of the `gamelib` module, absent from the
sources).  Per the spec, each tick calls `update()` on every live entity
and the loop halts once a terminal state is reached, so a tick delivered
to a stopped session mutates nothing. -/
def tickCallback (s : SessionState) : SessionState :=
  if s.running then { s with updatesDone := s.updatesDone + s.enemies } else s

/-- Embedding of `EnemyGenerator.spawn_more` (lines 639-642): it
unconditionally creates `int(level*1.5)+1` enemies and reschedules
itself, with no check that the session is still running. -/
def spawnMore (level : ℕ) (s : SessionState) : SessionState :=
  { s with enemies := s.enemies + ((level * 3) / 2 + 1) }

/-- Delivery of one scheduled callback to the session. -/
def runCallback (level : ℕ) (e : SessionEvent) (s : SessionState) : SessionState :=
  match e with
  | .tick => tickCallback s
  | .spawn => spawnMore level s

/-! ## Player motion (`Player.update`, real-valued because of the
turtle heading trigonometry) -/

/-- Embedding of `Home.contains` (lines 127-133): the closed square of
side `size` centered at `(hx, hy)`. -/
def homeContains (hx hy size x y : ℝ) : Prop :=
  (hx - size / 2 ≤ x ∧ x ≤ hx + size / 2) ∧ (hy - size / 2 ≤ y ∧ y ≤ hy + size / 2)

/-- Euclidean distance, as computed by `turtle.distance`. -/
noncomputable def dist2 (x y wx wy : ℝ) : ℝ :=
  Real.sqrt ((wx - x) ^ 2 + (wy - y) ^ 2)

open Classical in
/-- Embedding of `turtle.setheading(turtle.towards(wx, wy))` followed by
`turtle.forward(s)` (lines 179-180): the turtle moves `s` units along the
unit vector toward `(wx, wy)`; `towards` uses `atan2`, which returns
heading 0 (the positive x direction) when the turtle already stands at
the target. -/
noncomputable def moveToward (x y wx wy s : ℝ) : ℝ × ℝ :=
  let d := dist2 x y wx wy
  if d = 0 then (x + s, y)
  else (x + s * (wx - x) / d, y + s * (wy - y) / d)

/-- Player position, waypoint position and activity, and the session win
flag, as read and written by `Player.update`. -/
structure PlayerState : Type where
  x : ℝ
  y : ℝ
  wx : ℝ
  wy : ℝ
  wactive : Bool
  won : Bool

open Classical in
/-- Embedding of `Player.update` (lines 172-182): if Home contains the
player position, `game_over_win()` is called (the session win flag is
set) and the method continues without returning; then, if the waypoint is
active, the player advances by `speed` toward it and the waypoint is
deactivated when the remaining distance drops strictly below `speed`. -/
noncomputable def playerUpdate (hx hy hsize s : ℝ) (st : PlayerState) : PlayerState :=
  let st1 := if homeContains hx hy hsize st.x st.y then { st with won := true } else st
  if st1.wactive then
    let p := moveToward st1.x st1.y st1.wx st1.wy s
    if dist2 p.1 p.2 st1.wx st1.wy < s then
      { st1 with x := p.1, y := p.2, wactive := false }
    else { st1 with x := p.1, y := p.2 }
  else st1

/-! ## Homing enemy and bullet aiming (`HomingEnemy`, `Bullet.__init__`) -/

/-- Horizontal mode tag of `HomingEnemy` (`moving_left` / `moving_right`). -/
inductive HomingX : Type
  | left : HomingX
  | right : HomingX
deriving DecidableEq

/-- Vertical mode tag of `HomingEnemy` (`moving_up` / `moving_down`). -/
inductive HomingY : Type
  | up : HomingY
  | down : HomingY
deriving DecidableEq

open Classical in
/-- Embedding of `HomingEnemy.moving_right` (lines 358-365): when the
horizontal gap to the player is zero the division is short-circuited and
`x` gains 0; otherwise `x` gains `s * cos(atan(|dy| / |dx|))`; the mode
flips to `moving_left` when the player x is at or left of the updated x. -/
noncomputable def homingMovingRight (px py x y s : ℝ) : ℝ × HomingX :=
  let x' := if px - x = 0 then x + 0
    else x + s * Real.cos (Real.arctan (|py - y| / |px - x|))
  (x', if px ≤ x' then .left else .right)

open Classical in
/-- Embedding of `HomingEnemy.moving_left` (lines 367-374). -/
noncomputable def homingMovingLeft (px py x y s : ℝ) : ℝ × HomingX :=
  let x' := if px - x = 0 then x + 0
    else x - s * Real.cos (Real.arctan (|py - y| / |px - x|))
  (x', if x' ≤ px then .right else .left)

open Classical in
/-- Embedding of `HomingEnemy.moving_down` (lines 376-383): with a zero
horizontal gap the enemy moves down by the full scalar speed. -/
noncomputable def homingMovingDown (px py x y s : ℝ) : ℝ × HomingY :=
  let y' := if px - x = 0 then y + s
    else y + s * Real.sin (Real.arctan (|py - y| / |px - x|))
  (y', if py ≤ y' then .up else .down)

open Classical in
/-- Embedding of `HomingEnemy.moving_up` (lines 385-392): with a zero
horizontal gap the enemy moves up by the full scalar speed. -/
noncomputable def homingMovingUp (px py x y s : ℝ) : ℝ × HomingY :=
  let y' := if px - x = 0 then y - s
    else y - s * Real.sin (Real.arctan (|py - y| / |px - x|))
  (y', if y' ≤ py then .down else .up)

/-- Position and mode pair of a `HomingEnemy`. -/
structure HomingState : Type where
  x : ℝ
  y : ℝ
  xmode : HomingX
  ymode : HomingY

/-- Embedding of the movement part of `HomingEnemy.update` (lines
397-399): the horizontal mode function runs first, then the vertical one
reads the already-updated x. -/
noncomputable def homingUpdate (px py s : ℝ) (st : HomingState) : HomingState :=
  let hx := match st.xmode with
    | .right => homingMovingRight px py st.x st.y s
    | .left => homingMovingLeft px py st.x st.y s
  let hy := match st.ymode with
    | .down => homingMovingDown px py hx.1 st.y s
    | .up => homingMovingUp px py hx.1 st.y s
  ⟨hx.1, hy.1, hx.2, hy.2⟩

open Classical in
/-- Embedding of the velocity computation of `Bullet.__init__` (lines
477-501): aimed from the spawn coordinate `(cx, cy)` at the player
position `(px, py)` read at creation time; when the horizontal gap is
zero the speed goes wholly to the y component; the signs are then fixed
by comparing the spawn coordinate with the player position. -/
noncomputable def bulletVelocity (px py cx cy s : ℝ) : ℝ × ℝ :=
  let ys := if px - cx = 0 then s
    else s * Real.sin (Real.arctan (|py - cy| / |px - cx|))
  let xs := if px - cx = 0 then 0
    else s * Real.cos (Real.arctan (|py - cy| / |px - cx|))
  let xs' := if px ≤ cx then -xs else xs
  let ys' := if py ≤ cy then -ys else ys
  (xs', ys')

/-! ## Theorems -/

/-- C1: for every enemy and player position, `hits_player()` returns true
iff the player position lies within the enemy bounding square of side
equal to the enemy size, or the enemy center lies within the fixed
7-unit square around the player position, all edges inclusive. -/
theorem hitsPlayer_iff_boxes (ex ey size px py : ℚ) :
    hitsPlayer ex ey size px py = true ↔
      ((|px - ex| ≤ size / 2 ∧ |py - ey| ≤ size / 2)
        ∨ (|ex - px| ≤ 7 ∧ |ey - py| ≤ 7)) := by
  simp only [hitsPlayer, Bool.or_eq_true, Bool.and_eq_true, decide_eq_true_eq,
    abs_sub_le_iff]
  constructor
  · rintro (⟨⟨h1, h2⟩, h3, h4⟩ | ⟨⟨h1, h2⟩, h3, h4⟩)
    · exact Or.inl ⟨⟨by linarith, by linarith⟩, by linarith, by linarith⟩
    · exact Or.inr ⟨⟨by linarith, by linarith⟩, by linarith, by linarith⟩
  · rintro (⟨⟨h1, h2⟩, h3, h4⟩ | ⟨⟨h1, h2⟩, h3, h4⟩)
    · exact Or.inl ⟨⟨by linarith, by linarith⟩, by linarith, by linarith⟩
    · exact Or.inr ⟨⟨by linarith, by linarith⟩, by linarith, by linarith⟩

/-- C2: evaluation at the failing scenario.  After `game_over` the
session is stopped, and a tick delivered then mutates nothing; but a
pending `spawn_more` callback delivered to the stopped session (level 1,
five enemies) still adds `int(1*1.5)+1 = 2` enemies, mutating game
state, contrary to the claim. -/
theorem spawnMore_mutates_after_game_over :
    (gameOver ⟨true, 5, 0⟩).running = false
    ∧ runCallback 1 .tick (gameOver ⟨true, 5, 0⟩) = gameOver ⟨true, 5, 0⟩
    ∧ runCallback 1 .spawn (gameOver ⟨true, 5, 0⟩) ≠ gameOver ⟨true, 5, 0⟩
    ∧ (runCallback 1 .spawn (gameOver ⟨true, 5, 0⟩)).enemies = 7 := by
  decide

/-- Helper for C4: with fire rate 1.3 the timer reads exactly `33 * n`
after `n` ticks for every `n` up to 23, and no bullet has been spawned. -/
theorem turretState_timer_before_24 (n : ℕ) (hn : n ≤ 23) :
    turretState (turretFireRateField (13/10)) n = (((33 * n : ℕ) : ℚ), false) := by
  induction n with
  | zero => simp [turretState]
  | succ k ih =>
    rw [turretState, ih (by omega), turretShoot]
    have hk : (k : ℚ) ≤ 22 := by exact_mod_cast Nat.le_of_lt_succ (by omega)
    rw [if_neg (by rw [turretFireRateField]; push_cast; nlinarith)]
    push_cast
    ring_nf

/-- C4: starting from timer 0 with the fire rate 1.3 of the source, every
tick adds exactly 33 to the timer (so after `n` bullet-free ticks the
timer reads `33 * n`), no bullet is spawned on ticks 1 to 23, and the
first bullet is spawned on tick 24, the first tick on which the timer
reaches `(1/1.3)*1000`, with the timer reset to 0. -/
theorem turret_first_bullet_tick_24 :
    (∀ n : ℕ, n < 24 → turretState (turretFireRateField (13/10)) n = (((33 * n : ℕ) : ℚ), false))
    ∧ turretState (turretFireRateField (13/10)) 24 = (0, true) := by
  constructor
  · exact fun n hn => turretState_timer_before_24 n (by omega)
  · rw [show (24 : ℕ) = 23 + 1 from rfl, turretState,
      turretState_timer_before_24 23 (by norm_num), turretShoot]
    rw [if_pos (by rw [turretFireRateField]; push_cast; norm_num)]

/-- C4 witness: the theorem evaluated at tick 23 (timer 759, no bullet)
and tick 24 (bullet fired, timer reset). -/
theorem turret_first_bullet_tick_24_witness :
    turretState (turretFireRateField (13/10)) 23 = (((33 * 23 : ℕ) : ℚ), false)
    ∧ turretState (turretFireRateField (13/10)) 24 = (0, true) :=
  ⟨turret_first_bullet_tick_24.1 23 (by norm_num), turret_first_bullet_tick_24.2⟩

/-- C6: any position selected by the resampling loop of
`EnemyGenerator.create_enemy` for a non-Camping enemy is outside the
200 by 200 safe zone around the player, outside `home_area`, and within
the field bounds; candidates failing the test are never selected because
`find?` only returns a candidate passing it. -/
theorem createEnemyPos_placement (playerX playerY homeX homeSize : ℚ)
    (halfSize width height : ℤ) (cands : List (ℤ × ℤ)) (p : ℤ × ℤ)
    (hhs : 0 ≤ halfSize)
    (hcands : ∀ c ∈ cands, sampleRange halfSize width c.1 ∧ sampleRange halfSize height c.2)
    (hsel : createEnemyPos playerX playerY homeX homeSize cands = some p) :
    safeArea playerX playerY (p.1 : ℚ) (p.2 : ℚ) = false
    ∧ homeArea homeX homeSize playerY (p.1 : ℚ) (p.2 : ℚ) = false
    ∧ 0 ≤ p.1 ∧ p.1 ≤ width ∧ 0 ≤ p.2 ∧ p.2 ≤ height := by
  have hok := List.find?_some hsel
  have hmem := List.mem_of_find?_eq_some hsel
  obtain ⟨⟨hx1, hx2⟩, hy1, hy2⟩ := hcands p hmem
  simp only [placementOk, Bool.and_eq_true, Bool.not_eq_true'] at hok
  exact ⟨hok.1, hok.2, by omega, by omega, by omega, by omega⟩

/-- C6 witness: with the player at (300, 300) and Home at x = 500 of size
20, the candidate (10, 10) is accepted and satisfies every conclusion. -/
theorem createEnemyPos_placement_witness :
    safeArea 300 300 ((10 : ℤ) : ℚ) ((10 : ℤ) : ℚ) = false
    ∧ homeArea 500 20 300 ((10 : ℤ) : ℚ) ((10 : ℤ) : ℚ) = false
    ∧ 0 ≤ (10 : ℤ) ∧ (10 : ℤ) ≤ 800 ∧ 0 ≤ (10 : ℤ) ∧ (10 : ℤ) ≤ 500 :=
  createEnemyPos_placement 300 300 500 20 7 800 500 [(10, 10)] (10, 10)
    (by norm_num)
    (by rintro c hc; simp only [List.mem_singleton] at hc; subst hc;
        exact ⟨⟨by norm_num, by norm_num⟩, by norm_num, by norm_num⟩)
    (by norm_num [createEnemyPos, placementOk, safeArea, homeArea, List.find?])

/-- C7 counterexample: at a coordinate strictly inside the field the
claimed closed offset interval is wrong: the offset 15 belongs to
the closed integer interval from -15 to 15 but can never be drawn,
since `random.randrange(-15, 15)` excludes its upper bound. -/
theorem rmeOffsets_not_closed_interval :
    (0 : ℚ) < 50 ∧ (50 : ℚ) < 100
    ∧ (15 : ℤ) ∈ Finset.Icc (-15 : ℤ) 15
    ∧ (15 : ℤ) ∉ rmeOffsets 100 50 := by
  decide

/-- C7 amended: each coordinate of `RandomMovingEnemy.update` moves by an
integer offset drawn from the half-open interval from -15 to 15
(15 excluded) when the coordinate is strictly between 0 and the field
extent, from the interval 0 to 15 (15 excluded) when it is at most 0, and
from the interval -15 to 0 (0 excluded) when it is at least the extent. -/
theorem rmeOffsets_cases (extent x : ℚ) (d : ℤ) :
    (0 < x → x < extent → (d ∈ rmeOffsets extent x ↔ -15 ≤ d ∧ d < 15))
    ∧ (x ≤ 0 → (d ∈ rmeOffsets extent x ↔ 0 ≤ d ∧ d < 15))
    ∧ (0 < x → extent ≤ x → (d ∈ rmeOffsets extent x ↔ -15 ≤ d ∧ d < 0)) := by
  refine ⟨fun h1 h2 => ?_, fun h1 => ?_, fun h1 h2 => ?_⟩
  · rw [rmeOffsets, if_neg (by linarith), if_neg (by linarith)]
    simp [Finset.mem_Ico]
  · rw [rmeOffsets, if_pos h1]
    simp [Finset.mem_Ico]
  · rw [rmeOffsets, if_neg (by linarith), if_pos h2]
    simp [Finset.mem_Ico]

/-- C7 amended witness: at extent 100 and interior coordinate 50 the
offset 14 is drawable and 15 is the excluded upper bound. -/
theorem rmeOffsets_cases_witness :
    ((14 : ℤ) ∈ rmeOffsets 100 50 ↔ -15 ≤ (14 : ℤ) ∧ (14 : ℤ) < 15) :=
  (rmeOffsets_cases 100 50 14).1 (by norm_num) (by norm_num)

/-- Helper for C5: while the right patrol threshold has not been reached,
`moving_right` just advances x by the speed each tick. -/
theorem campingIter_right (hx hy m s : ℚ) (k : ℕ) :
    ∀ x y : ℚ, (∀ j : ℕ, j < k → x + (j + 1 : ℕ) * s < hx + m) →
      (campingStep hx hy m s)^[k] ⟨x, y, .right⟩ = ⟨x + k * s, y, .right⟩ := by
  induction k with
  | zero => intro x y _; simp
  | succ k ih =>
    intro x y h
    rw [Function.iterate_succ_apply]
    have h0 : x + s < hx + m := by have := h 0 (by omega); push_cast at this; linarith
    have hstep : campingStep hx hy m s ⟨x, y, .right⟩ = ⟨x + s, y, .right⟩ := by
      simp only [campingStep]; rw [if_neg (by linarith)]
    rw [hstep, ih (x + s) y ?_]
    · simp only [CampState.mk.injEq]
      exact ⟨by push_cast; ring, trivial, trivial⟩
    · intro j hj
      have h2 := h (j + 1) (by omega)
      push_cast at h2 ⊢
      linarith

/-- Helper for C5: while the bottom patrol threshold has not been
reached, `moving_down` just advances y by the speed each tick. -/
theorem campingIter_down (hx hy m s : ℚ) (k : ℕ) :
    ∀ x y : ℚ, (∀ j : ℕ, j < k → y + (j + 1 : ℕ) * s < hy + m) →
      (campingStep hx hy m s)^[k] ⟨x, y, .down⟩ = ⟨x, y + k * s, .down⟩ := by
  induction k with
  | zero => intro x y _; simp
  | succ k ih =>
    intro x y h
    rw [Function.iterate_succ_apply]
    have h0 : y + s < hy + m := by have := h 0 (by omega); push_cast at this; linarith
    have hstep : campingStep hx hy m s ⟨x, y, .down⟩ = ⟨x, y + s, .down⟩ := by
      simp only [campingStep]; rw [if_neg (by linarith)]
    rw [hstep, ih x (y + s) ?_]
    · simp only [CampState.mk.injEq]
      exact ⟨trivial, by push_cast; ring, trivial⟩
    · intro j hj
      have h2 := h (j + 1) (by omega)
      push_cast at h2 ⊢
      linarith

/-- Helper for C5: while the left patrol threshold has not been reached,
`moving_left` just decreases x by the speed each tick. -/
theorem campingIter_left (hx hy m s : ℚ) (k : ℕ) :
    ∀ x y : ℚ, (∀ j : ℕ, j < k → hx - m < x - (j + 1 : ℕ) * s) →
      (campingStep hx hy m s)^[k] ⟨x, y, .left⟩ = ⟨x - k * s, y, .left⟩ := by
  induction k with
  | zero => intro x y _; simp
  | succ k ih =>
    intro x y h
    rw [Function.iterate_succ_apply]
    have h0 : hx - m < x - s := by have := h 0 (by omega); push_cast at this; linarith
    have hstep : campingStep hx hy m s ⟨x, y, .left⟩ = ⟨x - s, y, .left⟩ := by
      simp only [campingStep]; rw [if_neg (by linarith)]
    rw [hstep, ih (x - s) y ?_]
    · simp only [CampState.mk.injEq]
      exact ⟨by push_cast; ring, trivial, trivial⟩
    · intro j hj
      have h2 := h (j + 1) (by omega)
      push_cast at h2 ⊢
      linarith

/-- Helper for C5: while the top patrol threshold has not been reached,
`moving_up` just decreases y by the speed each tick. -/
theorem campingIter_up (hx hy m s : ℚ) (k : ℕ) :
    ∀ x y : ℚ, (∀ j : ℕ, j < k → hy - m < y - (j + 1 : ℕ) * s) →
      (campingStep hx hy m s)^[k] ⟨x, y, .up⟩ = ⟨x, y - k * s, .up⟩ := by
  induction k with
  | zero => intro x y _; simp
  | succ k ih =>
    intro x y h
    rw [Function.iterate_succ_apply]
    have h0 : hy - m < y - s := by have := h 0 (by omega); push_cast at this; linarith
    have hstep : campingStep hx hy m s ⟨x, y, .up⟩ = ⟨x, y - s, .up⟩ := by
      simp only [campingStep]; rw [if_neg (by linarith)]
    rw [hstep, ih x (y - s) ?_]
    · simp only [CampState.mk.injEq]
      exact ⟨trivial, by push_cast; ring, trivial⟩
    · intro j hj
      have h2 := h (j + 1) (by omega)
      push_cast at h2 ⊢
      linarith

/-- Helper for C5: starting anywhere on the left end of the top edge in
mode right, after ceil(2m/s) ticks the enemy stands exactly on the
top-right corner in mode down. -/
theorem camping_corner_right (hx hy m s : ℚ) (hm : 0 < m) (hs : 0 < s) (y : ℚ) :
    (campingStep hx hy m s)^[⌈2 * m / s⌉₊] ⟨hx - m, y, .right⟩
      = ⟨hx + m, hy - m, .down⟩ := by
  obtain ⟨K, hK⟩ : ∃ K, ⌈2 * m / s⌉₊ = K + 1 :=
    ⟨⌈2 * m / s⌉₊ - 1, by have := Nat.ceil_pos.mpr (show (0:ℚ) < 2 * m / s by positivity); omega⟩
  rw [hK, Function.iterate_succ_apply',
    campingIter_right hx hy m s K (hx - m) y ?_]
  · simp only [campingStep]
    rw [if_pos ?_]
    have h1 : 2 * m / s ≤ ((K + 1 : ℕ) : ℚ) := hK ▸ Nat.le_ceil _
    have h2 : 2 * m ≤ ((K + 1 : ℕ) : ℚ) * s := (div_le_iff₀ hs).mp h1
    push_cast at h2
    linarith
  · intro j hj
    have h1 : ((j + 1 : ℕ) : ℚ) < 2 * m / s := Nat.lt_ceil.mp (by omega)
    have h2 : ((j + 1 : ℕ) : ℚ) * s < 2 * m := (lt_div_iff₀ hs).mp h1
    linarith

/-- Helper for C5: from the top-right corner in mode down, after
ceil(2m/s) ticks the enemy stands exactly on the bottom-right corner in
mode left. -/
theorem camping_corner_down (hx hy m s : ℚ) (hm : 0 < m) (hs : 0 < s) (x : ℚ) :
    (campingStep hx hy m s)^[⌈2 * m / s⌉₊] ⟨x, hy - m, .down⟩
      = ⟨hx + m, hy + m, .left⟩ := by
  obtain ⟨K, hK⟩ : ∃ K, ⌈2 * m / s⌉₊ = K + 1 :=
    ⟨⌈2 * m / s⌉₊ - 1, by have := Nat.ceil_pos.mpr (show (0:ℚ) < 2 * m / s by positivity); omega⟩
  rw [hK, Function.iterate_succ_apply',
    campingIter_down hx hy m s K x (hy - m) ?_]
  · simp only [campingStep]
    rw [if_pos ?_]
    have h1 : 2 * m / s ≤ ((K + 1 : ℕ) : ℚ) := hK ▸ Nat.le_ceil _
    have h2 : 2 * m ≤ ((K + 1 : ℕ) : ℚ) * s := (div_le_iff₀ hs).mp h1
    push_cast at h2
    linarith
  · intro j hj
    have h1 : ((j + 1 : ℕ) : ℚ) < 2 * m / s := Nat.lt_ceil.mp (by omega)
    have h2 : ((j + 1 : ℕ) : ℚ) * s < 2 * m := (lt_div_iff₀ hs).mp h1
    linarith

/-- Helper for C5: from the bottom-right corner in mode left, after
ceil(2m/s) ticks the enemy stands exactly on the bottom-left corner in
mode up. -/
theorem camping_corner_left (hx hy m s : ℚ) (hm : 0 < m) (hs : 0 < s) (y : ℚ) :
    (campingStep hx hy m s)^[⌈2 * m / s⌉₊] ⟨hx + m, y, .left⟩
      = ⟨hx - m, hy + m, .up⟩ := by
  obtain ⟨K, hK⟩ : ∃ K, ⌈2 * m / s⌉₊ = K + 1 :=
    ⟨⌈2 * m / s⌉₊ - 1, by have := Nat.ceil_pos.mpr (show (0:ℚ) < 2 * m / s by positivity); omega⟩
  rw [hK, Function.iterate_succ_apply',
    campingIter_left hx hy m s K (hx + m) y ?_]
  · simp only [campingStep]
    rw [if_pos ?_]
    have h1 : 2 * m / s ≤ ((K + 1 : ℕ) : ℚ) := hK ▸ Nat.le_ceil _
    have h2 : 2 * m ≤ ((K + 1 : ℕ) : ℚ) * s := (div_le_iff₀ hs).mp h1
    push_cast at h2
    linarith
  · intro j hj
    have h1 : ((j + 1 : ℕ) : ℚ) < 2 * m / s := Nat.lt_ceil.mp (by omega)
    have h2 : ((j + 1 : ℕ) : ℚ) * s < 2 * m := (lt_div_iff₀ hs).mp h1
    linarith

/-- Helper for C5: from the bottom-left corner in mode up, after
ceil(2m/s) ticks the enemy stands exactly back on the top-left corner in
mode right. -/
theorem camping_corner_up (hx hy m s : ℚ) (hm : 0 < m) (hs : 0 < s) (x : ℚ) :
    (campingStep hx hy m s)^[⌈2 * m / s⌉₊] ⟨x, hy + m, .up⟩
      = ⟨hx - m, hy - m, .right⟩ := by
  obtain ⟨K, hK⟩ : ∃ K, ⌈2 * m / s⌉₊ = K + 1 :=
    ⟨⌈2 * m / s⌉₊ - 1, by have := Nat.ceil_pos.mpr (show (0:ℚ) < 2 * m / s by positivity); omega⟩
  rw [hK, Function.iterate_succ_apply',
    campingIter_up hx hy m s K x (hy + m) ?_]
  · simp only [campingStep]
    rw [if_pos ?_]
    have h1 : 2 * m / s ≤ ((K + 1 : ℕ) : ℚ) := hK ▸ Nat.le_ceil _
    have h2 : 2 * m ≤ ((K + 1 : ℕ) : ℚ) * s := (div_le_iff₀ hs).mp h1
    push_cast at h2
    linarith
  · intro j hj
    have h1 : ((j + 1 : ℕ) : ℚ) < 2 * m / s := Nat.lt_ceil.mp (by omega)
    have h2 : ((j + 1 : ℕ) : ℚ) * s < 2 * m := (lt_div_iff₀ hs).mp h1
    linarith

/-- C5: the `CampingEnemy` mode cycles right, down, left, up; whenever an
update carries it to a corner of the patrol square of half-side
`multiplier = home.size/2 * 5` around Home, the position is snapped
exactly onto that corner and the mode switches to the next one in the
cycle; consequently, starting from its spawn corner, over enough ticks it
visits all four corners in cyclic order and returns to its start
corner. -/
theorem campingStep_patrol_cycle (hx hy size s : ℚ) (hsize : 0 < size) (hs : 0 < s) :
    (∀ st : CampState, st.mode = .right → hx + campingMultiplier size ≤ st.x + s →
      campingStep hx hy (campingMultiplier size) s st
        = ⟨hx + campingMultiplier size, hy - campingMultiplier size, .down⟩)
    ∧ (∀ st : CampState, st.mode = .down → hy + campingMultiplier size ≤ st.y + s →
      campingStep hx hy (campingMultiplier size) s st
        = ⟨hx + campingMultiplier size, hy + campingMultiplier size, .left⟩)
    ∧ (∀ st : CampState, st.mode = .left → st.x - s ≤ hx - campingMultiplier size →
      campingStep hx hy (campingMultiplier size) s st
        = ⟨hx - campingMultiplier size, hy + campingMultiplier size, .up⟩)
    ∧ (∀ st : CampState, st.mode = .up → st.y - s ≤ hy - campingMultiplier size →
      campingStep hx hy (campingMultiplier size) s st
        = ⟨hx - campingMultiplier size, hy - campingMultiplier size, .right⟩)
    ∧ ∃ n1 n2 n3 n4 : ℕ, 0 < n1 ∧ n1 < n2 ∧ n2 < n3 ∧ n3 < n4
      ∧ (campingStep hx hy (campingMultiplier size) s)^[n1]
          (campingStart hx hy (campingMultiplier size))
          = ⟨hx + campingMultiplier size, hy - campingMultiplier size, .down⟩
      ∧ (campingStep hx hy (campingMultiplier size) s)^[n2]
          (campingStart hx hy (campingMultiplier size))
          = ⟨hx + campingMultiplier size, hy + campingMultiplier size, .left⟩
      ∧ (campingStep hx hy (campingMultiplier size) s)^[n3]
          (campingStart hx hy (campingMultiplier size))
          = ⟨hx - campingMultiplier size, hy + campingMultiplier size, .up⟩
      ∧ (campingStep hx hy (campingMultiplier size) s)^[n4]
          (campingStart hx hy (campingMultiplier size))
          = campingStart hx hy (campingMultiplier size) := by
  have hm : 0 < campingMultiplier size := by
    rw [campingMultiplier]; positivity
  set m := campingMultiplier size with hmdef
  refine ⟨?_, ?_, ?_, ?_, ?_⟩
  · rintro ⟨x, y, mo⟩ hmo hthr
    simp only at hmo
    subst hmo
    simp only [campingStep]
    rw [if_pos (by simpa using hthr)]
  · rintro ⟨x, y, mo⟩ hmo hthr
    simp only at hmo
    subst hmo
    simp only [campingStep]
    rw [if_pos (by simpa using hthr)]
  · rintro ⟨x, y, mo⟩ hmo hthr
    simp only at hmo
    subst hmo
    simp only [campingStep]
    rw [if_pos (by simpa using hthr)]
  · rintro ⟨x, y, mo⟩ hmo hthr
    simp only at hmo
    subst hmo
    simp only [campingStep]
    rw [if_pos (by simpa using hthr)]
  · have hKpos : 0 < ⌈2 * m / s⌉₊ := Nat.ceil_pos.mpr (by positivity)
    have hc1 : (campingStep hx hy m s)^[⌈2 * m / s⌉₊] (campingStart hx hy m)
        = ⟨hx + m, hy - m, .down⟩ := by
      rw [campingStart]
      exact camping_corner_right hx hy m s hm hs (hy - m)
    have hc2 : (campingStep hx hy m s)^[⌈2 * m / s⌉₊ + ⌈2 * m / s⌉₊]
        (campingStart hx hy m) = ⟨hx + m, hy + m, .left⟩ := by
      rw [Function.iterate_add_apply, hc1]
      exact camping_corner_down hx hy m s hm hs (hx + m)
    have hc3 : (campingStep hx hy m s)^[⌈2 * m / s⌉₊ + (⌈2 * m / s⌉₊ + ⌈2 * m / s⌉₊)]
        (campingStart hx hy m) = ⟨hx - m, hy + m, .up⟩ := by
      rw [Function.iterate_add_apply, hc2]
      exact camping_corner_left hx hy m s hm hs (hy + m)
    have hc4 : (campingStep hx hy m s)^[⌈2 * m / s⌉₊
          + (⌈2 * m / s⌉₊ + (⌈2 * m / s⌉₊ + ⌈2 * m / s⌉₊))]
        (campingStart hx hy m) = campingStart hx hy m := by
      rw [Function.iterate_add_apply, hc3, campingStart]
      exact camping_corner_up hx hy m s hm hs (hx - m)
    exact ⟨⌈2 * m / s⌉₊, ⌈2 * m / s⌉₊ + ⌈2 * m / s⌉₊,
      ⌈2 * m / s⌉₊ + (⌈2 * m / s⌉₊ + ⌈2 * m / s⌉₊),
      ⌈2 * m / s⌉₊ + (⌈2 * m / s⌉₊ + (⌈2 * m / s⌉₊ + ⌈2 * m / s⌉₊)),
      by omega, by omega, by omega, by omega, hc1, hc2, hc3, hc4⟩

/-- C5 witness: Home at (0, 0) with size 20 (multiplier 50) and speed 3:
the enemy snaps to the corners and completes its patrol cycle. -/
theorem campingStep_patrol_cycle_witness :
    (∀ st : CampState, st.mode = .right → 0 + campingMultiplier 20 ≤ st.x + 3 →
      campingStep 0 0 (campingMultiplier 20) 3 st
        = ⟨0 + campingMultiplier 20, 0 - campingMultiplier 20, .down⟩)
    ∧ (∀ st : CampState, st.mode = .down → 0 + campingMultiplier 20 ≤ st.y + 3 →
      campingStep 0 0 (campingMultiplier 20) 3 st
        = ⟨0 + campingMultiplier 20, 0 + campingMultiplier 20, .left⟩)
    ∧ (∀ st : CampState, st.mode = .left → st.x - 3 ≤ 0 - campingMultiplier 20 →
      campingStep 0 0 (campingMultiplier 20) 3 st
        = ⟨0 - campingMultiplier 20, 0 + campingMultiplier 20, .up⟩)
    ∧ (∀ st : CampState, st.mode = .up → st.y - 3 ≤ 0 - campingMultiplier 20 →
      campingStep 0 0 (campingMultiplier 20) 3 st
        = ⟨0 - campingMultiplier 20, 0 - campingMultiplier 20, .right⟩)
    ∧ ∃ n1 n2 n3 n4 : ℕ, 0 < n1 ∧ n1 < n2 ∧ n2 < n3 ∧ n3 < n4
      ∧ (campingStep 0 0 (campingMultiplier 20) 3)^[n1]
          (campingStart 0 0 (campingMultiplier 20))
          = ⟨0 + campingMultiplier 20, 0 - campingMultiplier 20, .down⟩
      ∧ (campingStep 0 0 (campingMultiplier 20) 3)^[n2]
          (campingStart 0 0 (campingMultiplier 20))
          = ⟨0 + campingMultiplier 20, 0 + campingMultiplier 20, .left⟩
      ∧ (campingStep 0 0 (campingMultiplier 20) 3)^[n3]
          (campingStart 0 0 (campingMultiplier 20))
          = ⟨0 - campingMultiplier 20, 0 + campingMultiplier 20, .up⟩
      ∧ (campingStep 0 0 (campingMultiplier 20) 3)^[n4]
          (campingStart 0 0 (campingMultiplier 20))
          = campingStart 0 0 (campingMultiplier 20) :=
  campingStep_patrol_cycle 0 0 20 3 (by norm_num) (by norm_num)

/-- C10: the default speed of `CampingEnemy` is the single class-time
draw of `random.randrange(3, 5)`: every construction without an explicit
speed receives exactly the class default, an integer equal to 3 or 4. -/
theorem campingCtorSpeed_default_once (stream : ℕ → ℤ)
    (h3 : 3 ≤ stream 0) (h5 : stream 0 < 5) :
    campingCtorSpeed stream none = ((campingClassDefault stream : ℤ) : ℚ)
    ∧ (campingCtorSpeed stream none = 3 ∨ campingCtorSpeed stream none = 4) := by
  refine ⟨rfl, ?_⟩
  have : stream 0 = 3 ∨ stream 0 = 4 := by omega
  rcases this with h | h <;>
    simp [campingCtorSpeed, campingClassDefault, h, Option.getD]

/-- C10 witness: with a random stream whose class-time draw is 4, any
construction without an explicit speed gets exactly the class default. -/
theorem campingCtorSpeed_default_once_witness :
    campingCtorSpeed (fun _ => 4) none = ((campingClassDefault (fun _ => 4) : ℤ) : ℚ)
    ∧ (campingCtorSpeed (fun _ => 4) none = 3 ∨ campingCtorSpeed (fun _ => 4) none = 4) :=
  campingCtorSpeed_default_once (fun _ => 4) (by norm_num) (by norm_num)

/-- Helper for C3 and C9: one `forward(s)` step toward the waypoint
covers exactly distance `s`, whether or not the turtle already stands on
the waypoint. -/
theorem moveToward_dist (x y wx wy s : ℝ) (hs : 0 ≤ s) :
    dist2 (moveToward x y wx wy s).1 (moveToward x y wx wy s).2 x y = s := by
  by_cases hd : dist2 x y wx wy = 0
  · simp only [moveToward, hd, if_pos]
    have h1 : (x - (x + s)) ^ 2 + (y - y) ^ 2 = s ^ 2 := by ring
    rw [dist2, h1, Real.sqrt_sq hs]
  · simp only [moveToward, if_neg hd]
    have hdd : dist2 x y wx wy ^ 2 = (wx - x) ^ 2 + (wy - y) ^ 2 :=
      Real.sq_sqrt (by positivity)
    have key : (x - (x + s * (wx - x) / dist2 x y wx wy)) ^ 2
        + (y - (y + s * (wy - y) / dist2 x y wx wy)) ^ 2 = s ^ 2 := by
      have expand : (x - (x + s * (wx - x) / dist2 x y wx wy)) ^ 2
          + (y - (y + s * (wy - y) / dist2 x y wx wy)) ^ 2
          = s ^ 2 * ((wx - x) ^ 2 + (wy - y) ^ 2) / dist2 x y wx wy ^ 2 := by
        ring
      rw [expand, ← hdd, mul_div_assoc, div_self (pow_ne_zero 2 hd), mul_one]
    rw [dist2, key, Real.sqrt_sq hs]

/-- Helper for C3 and C9: a turtle standing exactly distance `s` from the
waypoint lands exactly on the waypoint after one `forward(s)`. -/
theorem moveToward_exact (x y wx wy s : ℝ) (hs : 0 < s)
    (hdist : dist2 x y wx wy = s) :
    moveToward x y wx wy s = (wx, wy) := by
  have hs' : s ≠ 0 := ne_of_gt hs
  have hd : ¬dist2 x y wx wy = 0 := by rw [hdist]; exact hs'
  simp only [moveToward, if_neg hd]
  rw [hdist]
  have h1 : x + s * (wx - x) / s = wx := by field_simp
  have h2 : y + s * (wy - y) / s = wy := by field_simp
  rw [h1, h2]

/-- Helper for C3 and C9: the distance from a point to itself is 0. -/
theorem dist2_self (x y : ℝ) : dist2 x y x y = 0 := by
  rw [dist2]
  simp

/-- C3: with the waypoint active, `Player.update` moves the player
exactly `speed` units, in the direction of the waypoint, and deactivates
the waypoint exactly when the resulting distance to the waypoint is
strictly below `speed`; in particular a player exactly `speed` away lands
exactly on the waypoint and deactivates it in that one tick; with the
waypoint inactive the position is unchanged. -/
theorem playerUpdate_waypoint_motion (hx hy hsize s : ℝ) (st : PlayerState)
    (hs : 0 < s) :
    (st.wactive = true →
      dist2 (playerUpdate hx hy hsize s st).x (playerUpdate hx hy hsize s st).y
        st.x st.y = s
      ∧ ((playerUpdate hx hy hsize s st).x, (playerUpdate hx hy hsize s st).y)
          = moveToward st.x st.y st.wx st.wy s
      ∧ ((playerUpdate hx hy hsize s st).wactive = false ↔
          dist2 (moveToward st.x st.y st.wx st.wy s).1
            (moveToward st.x st.y st.wx st.wy s).2 st.wx st.wy < s)
      ∧ (dist2 st.x st.y st.wx st.wy = s →
          (playerUpdate hx hy hsize s st).x = st.wx
          ∧ (playerUpdate hx hy hsize s st).y = st.wy
          ∧ (playerUpdate hx hy hsize s st).wactive = false))
    ∧ (st.wactive = false →
        (playerUpdate hx hy hsize s st).x = st.x
        ∧ (playerUpdate hx hy hsize s st).y = st.y
        ∧ (playerUpdate hx hy hsize s st).wactive = false) := by
  obtain ⟨X, Y, WX, WY, WA, WON⟩ := st
  simp only
  constructor
  · rintro rfl
    by_cases hc : homeContains hx hy hsize X Y <;>
      by_cases hlt : dist2 (moveToward X Y WX WY s).1 (moveToward X Y WX WY s).2 WX WY < s
    all_goals
      refine ⟨by simp [playerUpdate, hc, hlt, moveToward_dist X Y WX WY s hs.le],
        by simp [playerUpdate, hc, hlt],
        by simp [playerUpdate, hc, hlt], fun hdist => ?_⟩
    · have hmv := moveToward_exact X Y WX WY s hs hdist
      simp [playerUpdate, hc, hmv, dist2_self, hs]
    · have h0 : dist2 (moveToward X Y WX WY s).1 (moveToward X Y WX WY s).2 WX WY = 0 := by
        rw [moveToward_exact X Y WX WY s hs hdist]
        simpa using dist2_self WX WY
      exact absurd (by rw [h0]; exact hs) hlt
    · have hmv := moveToward_exact X Y WX WY s hs hdist
      simp [playerUpdate, hc, hmv, dist2_self, hs]
    · have h0 : dist2 (moveToward X Y WX WY s).1 (moveToward X Y WX WY s).2 WX WY = 0 := by
        rw [moveToward_exact X Y WX WY s hs hdist]
        simpa using dist2_self WX WY
      exact absurd (by rw [h0]; exact hs) hlt
  · rintro rfl
    by_cases hc : homeContains hx hy hsize X Y <;>
      simp [playerUpdate, hc]

/-- C3 witness: player at the origin, waypoint 5 to the right, speed 5:
the player covers distance 5, lands exactly on the waypoint, and the
waypoint deactivates in that tick. -/
theorem playerUpdate_waypoint_motion_witness :
    (((⟨0, 0, 5, 0, true, false⟩ : PlayerState).wactive = true →
      dist2 (playerUpdate 1000 1000 20 5 ⟨0, 0, 5, 0, true, false⟩).x
        (playerUpdate 1000 1000 20 5 ⟨0, 0, 5, 0, true, false⟩).y
        (⟨0, 0, 5, 0, true, false⟩ : PlayerState).x
        (⟨0, 0, 5, 0, true, false⟩ : PlayerState).y = 5
      ∧ ((playerUpdate 1000 1000 20 5 ⟨0, 0, 5, 0, true, false⟩).x,
          (playerUpdate 1000 1000 20 5 ⟨0, 0, 5, 0, true, false⟩).y)
          = moveToward 0 0 5 0 5
      ∧ ((playerUpdate 1000 1000 20 5 ⟨0, 0, 5, 0, true, false⟩).wactive = false ↔
          dist2 (moveToward 0 0 5 0 5).1 (moveToward 0 0 5 0 5).2 5 0 < 5)
      ∧ (dist2 0 0 5 0 = 5 →
          (playerUpdate 1000 1000 20 5 ⟨0, 0, 5, 0, true, false⟩).x = 5
          ∧ (playerUpdate 1000 1000 20 5 ⟨0, 0, 5, 0, true, false⟩).y = 0
          ∧ (playerUpdate 1000 1000 20 5 ⟨0, 0, 5, 0, true, false⟩).wactive = false)))
    ∧ (((⟨0, 0, 5, 0, true, false⟩ : PlayerState).wactive = false →
        (playerUpdate 1000 1000 20 5 ⟨0, 0, 5, 0, true, false⟩).x = 0
        ∧ (playerUpdate 1000 1000 20 5 ⟨0, 0, 5, 0, true, false⟩).y = 0
        ∧ (playerUpdate 1000 1000 20 5 ⟨0, 0, 5, 0, true, false⟩).wactive = false)) :=
  playerUpdate_waypoint_motion 1000 1000 20 5 ⟨0, 0, 5, 0, true, false⟩ (by norm_num)

/-- C9: when Home contains the player position at the start of
`Player.update`, the session win is signalled, yet the method does not
return early: with the waypoint also active the player still advances by
`speed` toward it within that same call, and the waypoint deactivates
exactly when the resulting distance is strictly below `speed`. -/
theorem playerUpdate_win_still_moves (hx hy hsize s : ℝ) (st : PlayerState)
    (hs : 0 < s) (hc : homeContains hx hy hsize st.x st.y) (hw : st.wactive = true) :
    (playerUpdate hx hy hsize s st).won = true
    ∧ ((playerUpdate hx hy hsize s st).x, (playerUpdate hx hy hsize s st).y)
        = moveToward st.x st.y st.wx st.wy s
    ∧ dist2 (playerUpdate hx hy hsize s st).x (playerUpdate hx hy hsize s st).y
        st.x st.y = s
    ∧ ((playerUpdate hx hy hsize s st).wactive = false ↔
        dist2 (moveToward st.x st.y st.wx st.wy s).1
          (moveToward st.x st.y st.wx st.wy s).2 st.wx st.wy < s) := by
  obtain ⟨X, Y, WX, WY, WA, WON⟩ := st
  simp only at hw hc
  subst hw
  by_cases hlt : dist2 (moveToward X Y WX WY s).1 (moveToward X Y WX WY s).2 WX WY < s <;>
    exact ⟨by simp [playerUpdate, hc, hlt],
      by simp [playerUpdate, hc, hlt],
      by simp [playerUpdate, hc, hlt, moveToward_dist X Y WX WY s hs.le],
      by simp [playerUpdate, hc, hlt]⟩

/-- C9 witness: home square of side 20 at the origin contains the player
at the origin; with the waypoint at (5, 0) active and speed 5, the win is
signalled and the player still moves onto the waypoint in the same call. -/
theorem playerUpdate_win_still_moves_witness :
    (playerUpdate 0 0 20 5 ⟨0, 0, 5, 0, true, false⟩).won = true
    ∧ ((playerUpdate 0 0 20 5 ⟨0, 0, 5, 0, true, false⟩).x,
        (playerUpdate 0 0 20 5 ⟨0, 0, 5, 0, true, false⟩).y)
        = moveToward 0 0 5 0 5
    ∧ dist2 (playerUpdate 0 0 20 5 ⟨0, 0, 5, 0, true, false⟩).x
        (playerUpdate 0 0 20 5 ⟨0, 0, 5, 0, true, false⟩).y 0 0 = 5
    ∧ ((playerUpdate 0 0 20 5 ⟨0, 0, 5, 0, true, false⟩).wactive = false ↔
        dist2 (moveToward 0 0 5 0 5).1 (moveToward 0 0 5 0 5).2 5 0 < 5) :=
  playerUpdate_win_still_moves 0 0 20 5 ⟨0, 0, 5, 0, true, false⟩ (by norm_num)
    ⟨⟨by norm_num, by norm_num⟩, by norm_num, by norm_num⟩ rfl

/-- C8: whenever the horizontal gap between chaser and player is exactly
zero, every one of the four `HomingEnemy` movement functions
short-circuits the angle computation: the two horizontal ones leave x
unchanged, the two vertical ones move by the full scalar speed along y,
a whole `update` therefore moves along y only at full speed, and the
`Bullet` velocity computed at creation is purely vertical at full
speed. -/
theorem homing_bullet_zero_dx (px py s : ℝ) (st : HomingState)
    (h : px - st.x = 0) :
    (homingMovingRight px py st.x st.y s).1 = st.x
    ∧ (homingMovingLeft px py st.x st.y s).1 = st.x
    ∧ (homingMovingDown px py st.x st.y s).1 = st.y + s
    ∧ (homingMovingUp px py st.x st.y s).1 = st.y - s
    ∧ (homingUpdate px py s st).x = st.x
    ∧ (st.ymode = .down → (homingUpdate px py s st).y = st.y + s)
    ∧ (st.ymode = .up → (homingUpdate px py s st).y = st.y - s)
    ∧ bulletVelocity px py st.x st.y s = (0, if py ≤ st.y then -s else s) := by
  obtain ⟨X, Y, XM, YM⟩ := st
  simp only at h ⊢
  have hx : px = X := by linarith
  subst hx
  refine ⟨?_, ?_, ?_, ?_, ?_, ?_, ?_, ?_⟩
  · simp [homingMovingRight]
  · simp [homingMovingLeft]
  · simp [homingMovingDown]
  · simp [homingMovingUp]
  · cases XM <;> cases YM <;>
      simp [homingUpdate, homingMovingRight, homingMovingLeft,
        homingMovingDown, homingMovingUp]
  · rintro rfl
    cases XM <;>
      simp [homingUpdate, homingMovingRight, homingMovingLeft, homingMovingDown]
  · rintro rfl
    cases XM <;>
      simp [homingUpdate, homingMovingRight, homingMovingLeft, homingMovingUp]
  · simp [bulletVelocity]

/-- C8 witness: player and enemy share x = 0, enemy below-right modes,
speed 2: the x functions keep x, the y functions move by the full 2, and
the bullet velocity is purely vertical. -/
theorem homing_bullet_zero_dx_witness :
    (homingMovingRight 0 7 0 1 2).1 = 0
    ∧ (homingMovingLeft 0 7 0 1 2).1 = 0
    ∧ (homingMovingDown 0 7 0 1 2).1 = 1 + 2
    ∧ (homingMovingUp 0 7 0 1 2).1 = 1 - 2
    ∧ (homingUpdate 0 7 2 ⟨0, 1, .right, .down⟩).x = 0
    ∧ ((⟨0, 1, .right, .down⟩ : HomingState).ymode = .down →
        (homingUpdate 0 7 2 ⟨0, 1, .right, .down⟩).y = 1 + 2)
    ∧ ((⟨0, 1, .right, .down⟩ : HomingState).ymode = .up →
        (homingUpdate 0 7 2 ⟨0, 1, .right, .down⟩).y = 1 - 2)
    ∧ bulletVelocity 0 7 0 1 2 = (0, if (7 : ℝ) ≤ 1 then -2 else 2) :=
  homing_bullet_zero_dx 0 7 2 ⟨0, 1, .right, .down⟩ (by norm_num)

end TurtleAdventure
